import Mathlib

/-!
# Verification of the Ashby SDK request/pagination/resource pipeline

Shallow embedding of the Python SDK (`ashby_sdk`) in Lean 4.  JSON values are
modelled by an inductive type, Python dicts by insertion-ordered association
lists, and each Python function of the core pipeline is translated into a pure
Lean function operating on these.  The HTTP transport is modelled as an oracle:
paginated calls take the list of page envelopes the server would return, and
single-shot calls take the one response body.
-/

namespace AshbySdk

/-- A JSON value, as delivered by the remote API and manipulated by the SDK.
Python `None` is `null`; objects keep their insertion order, as Python dicts
do.  Floating point payloads do not occur in the code under verification. -/
inductive JsonValue where
  | null : JsonValue
  | bool : Bool → JsonValue
  | num : Int → JsonValue
  | str : String → JsonValue
  | arr : List JsonValue → JsonValue
  | obj : List (String × JsonValue) → JsonValue

/-- A Python dict with string keys (the shape of every request body and
response envelope in the SDK): an insertion-ordered association list. -/
abbrev Dict := List (String × JsonValue)

/-- Python truthiness (`bool(v)`) for the JSON values the SDK tests with
`if v:` / `if not v:`. -/
def truthy : JsonValue → Bool
  | .null => false
  | .bool b => b
  | .num n => n != 0
  | .str s => !(s = "")
  | .arr xs => !xs.isEmpty
  | .obj fs => !fs.isEmpty

/-- A single-quote character, written via its code point so the development
never spells a quote in a literal. -/
def sq : String := String.singleton (Char.ofNat 39)

mutual

/-- Python `repr(v)` for JSON-shaped values (strings quoted with single
quotes; string escaping is not modelled, the payloads under verification
contain no quotes). -/
def pyRepr : JsonValue → String
  | .null => "None"
  | .bool b => if b then "True" else "False"
  | .num n => toString n
  | .str s => sq ++ s ++ sq
  | .arr xs => "[" ++ pyReprSeq xs ++ "]"
  | .obj fs => "\x7b" ++ pyReprFields fs ++ "\x7d"

/-- The comma-joined `repr`s of a Python list's elements. -/
def pyReprSeq : List JsonValue → String
  | [] => ""
  | [x] => pyRepr x
  | x :: y :: rest => pyRepr x ++ ", " ++ pyReprSeq (y :: rest)

/-- The comma-joined `key: value` renderings of a Python dict's items. -/
def pyReprFields : List (String × JsonValue) → String
  | [] => ""
  | [(k, v)] => sq ++ k ++ sq ++ ": " ++ pyRepr v
  | (k, v) :: fv :: rest =>
    sq ++ k ++ sq ++ ": " ++ pyRepr v ++ ", " ++ pyReprFields (fv :: rest)

end

/-- Python `str(v)`: the string itself for strings, `repr` otherwise (the
only cases exercised by the SDK are JSON-shaped values). -/
def pyStr : JsonValue → String
  | .str s => s
  | v => pyRepr v

/-- `d.get(k)`: the value stored under `k`, or Python `None` absence
(`Option.none`). -/
def dictGet (d : Dict) (k : String) : Option JsonValue :=
  (d.find? (fun kv => kv.1 = k)).map (·.2)

/-- `d.get(k, default)`. -/
def dictGetD (d : Dict) (k : String) (default : JsonValue) : JsonValue :=
  (dictGet d k).getD default

/-- `d[k] = v` on a Python dict: update in place when the key is present
(keeping its position), append otherwise.  A Python dict never holds a key
twice, so replacing the first occurrence is exact. -/
def dictSet (d : Dict) (k : String) (v : JsonValue) : Dict :=
  match d with
  | [] => [(k, v)]
  | kv :: rest => if kv.1 = k then (k, v) :: rest else kv :: dictSet rest k v

/-- `k in d`. -/
def dictHas (d : Dict) (k : String) : Bool :=
  d.any (fun kv => kv.1 = k)

/-- The elements of a JSON array; the SDK only iterates values that are
lists, so every other shape maps to the empty iteration. -/
def asList : JsonValue → List JsonValue
  | .arr xs => xs
  | _ => []

/-- The fields of a JSON object; the SDK only calls `.get` on values that
are dicts, so every other shape maps to the empty object. -/
def asObj : JsonValue → Dict
  | .obj fs => fs
  | _ => []

/-- `.get(k)` on a JSON value known to be an object. -/
def objGet (v : JsonValue) (k : String) : Option JsonValue :=
  dictGet (asObj v) k

/-- `.get(k, default)` on a JSON value known to be an object. -/
def objGetD (v : JsonValue) (k : String) (default : JsonValue) : JsonValue :=
  dictGetD (asObj v) k default

/-- Python `==` between a JSON value and a Python string: only an equal
string compares equal (no cross-type coercion for strings). -/
def pyEqStr (v : JsonValue) (t : String) : Bool :=
  match v with
  | .str s => s = t
  | _ => false

/-! ## Request Executor (`AshbyClient._request`) -/

/-- The ways `AshbyClient._request` can leave, one constructor per raise
site plus success: `authError` is `AshbyAuthError` (raised for both 401 and
403, with different messages), `httpError` is the `requests.HTTPError` from
`raise_for_status()`, `apiError` is `AshbyAPIError(message, errors)`, and
`ok` returns the parsed body unchanged. -/
inductive RequestOutcome where
  | authError (message : String)
  | httpError (status : Nat)
  | apiError (message : String) (errors : JsonValue)
  | ok (body : Dict)

/-- The classification chain of `AshbyClient._request` applied to the
transport response: status checks in source order (401, then 403, then
`raise_for_status()`, which raises exactly for statuses in 400..599), then
the `success` flag of the parsed body, then the error-message selection
`error_info.get("message") if error_info else str(errors)` interpolated
into `f"API error: ..."`. -/
def classifyResponse (status : Nat) (body : Dict) : RequestOutcome :=
  if status = 401 then
    .authError "Invalid or missing API key"
  else if status = 403 then
    .authError "API key does not have permission for this endpoint"
  else if 400 ≤ status ∧ status < 600 then
    .httpError status
  else if truthy (dictGetD body "success" (.bool false)) then
    .ok body
  else
    let errors := dictGetD body "errors" (.arr [])
    let errorInfo := dictGetD body "errorInfo" (.obj [])
    let message :=
      if truthy errorInfo then
        match objGet errorInfo "message" with
        | some m => pyStr m
        | none => "None"
      else
        pyStr errors
    .apiError ("API error: " ++ message) errors

/-! ## Paginator (`AshbyClient._paginate`)

The generator is embedded as a pure function over an oracle: the list of
page envelopes the server would return to successive requests, in order.
Its mutable state is made explicit: `PagCells` holds the caller's dict
object and the generator's private copy (`request_data = data.copy() if
data else {}` allocates a fresh dict, so the two are distinct objects; the
loop body assigns only `request_data["cursor"]`, which the recursion
mirrors by threading `requestData` and passing `callerData` through
untouched, exactly as the source never writes `data`). -/

/-- The two dict objects live in `AshbyClient._paginate`. -/
structure PagCells where
  callerData : Option Dict
  requestData : Dict

/-- Observable trace of a `_paginate` run: the body of every request
issued (all to the same endpoint), the items yielded, and whether the
`while True` loop reached its `break` (`finished = false` means the loop
was still asking for more pages when the oracle ran out — in particular
the generator had not terminated). -/
structure PaginateResult where
  requests : List Dict
  yielded : List JsonValue
  finished : Bool

/-- One step of the `while True:` loop of `_paginate` per oracle entry:
attach the cursor when truthy (`if cursor:`), issue the request, yield
`response.get("results", [])`, break unless
`response.get("moreDataAvailable", False)` is truthy, and continue with
`cursor = response.get("nextCursor")`. -/
def paginateLoop (responses : List Dict) (st : PagCells) (cursor : Option JsonValue) :
    PagCells × PaginateResult :=
  match responses with
  | [] => (st, ⟨[], [], false⟩)
  | r :: rest =>
    let rd := match cursor with
      | some c => if truthy c then dictSet st.requestData "cursor" c else st.requestData
      | none => st.requestData
    let items := asList (dictGetD r "results" (.arr []))
    if truthy (dictGetD r "moreDataAvailable" (.bool false)) then
      let next := paginateLoop rest ⟨st.callerData, rd⟩ (dictGet r "nextCursor")
      (next.1, ⟨rd :: next.2.requests, items ++ next.2.yielded, next.2.finished⟩)
    else
      (⟨st.callerData, rd⟩, ⟨[rd], items, true⟩)

/-- `AshbyClient._paginate(endpoint, data, limit)` run against the oracle
`responses`.  Returns the final state of both dict objects together with
the request/yield trace.  `endpoint` is carried for interface fidelity;
every request of the trace is a POST to it. -/
def paginateRun (endpoint : String) (data : Option Dict) (limit : Int)
    (responses : List Dict) : PagCells × PaginateResult :=
  let rd0 := dictSet (data.getD []) "limit" (.num limit)
  paginateLoop responses ⟨data, rd0⟩ none

/-- The trace of a `_paginate` run (the part a consumer such as `list()`
observes). -/
def paginate (endpoint : String) (data : Option Dict) (limit : Int)
    (responses : List Dict) : PaginateResult :=
  (paginateRun endpoint data limit responses).2

/-! ## Generic Resource (`GenericResource`) -/

/-- The Endpoint Descriptor data of `GenericResource.__init__`: endpoint
name, whether `.info` is supported, and the optional id-parameter
override. -/
structure GenericResource where
  endpoint : String
  supportsGet : Bool
  idParam : Option String

/-- `self._id_param = id_param or f"{endpoint}Id"`: Python `or`, so a
missing or empty override falls back to the default. -/
def GenericResource.idParamName (r : GenericResource) : String :=
  match r.idParam with
  | some s => if s = "" then r.endpoint ++ "Id" else s
  | none => r.endpoint ++ "Id"

/-- Outcome of `GenericResource.get(id)`: either the
`NotImplementedError` raised before any request, or the single request
issued (endpoint and body) together with the object
`response.get("results", {})` handed to the model mapper. -/
inductive GetOutcome where
  | unsupported (message : String)
  | fetched (endpoint : String) (body : Dict) (mapped : JsonValue)

/-- `GenericResource.get(id)` run against the oracle `response` (the body
the single request would receive). -/
def GenericResource.get (r : GenericResource) (id : String) (response : Dict) :
    GetOutcome :=
  if !r.supportsGet then
    .unsupported ("The " ++ r.endpoint ++ " endpoint does not support .info (get by ID)")
  else
    .fetched (r.endpoint ++ ".info") [(r.idParamName, .str id)]
      (dictGetD response "results" (.obj []))

/-! ## Candidate search (`CandidatesResource.search`) -/

/-- Outcome of `CandidatesResource.search(email, name)` up to its single
`_request`: either the `ValueError` raised before any request, or the one
request issued (`search` calls `self._request` exactly once and never
`self._paginate`, so results are capped at one page). -/
inductive SearchOutcome where
  | validationError (message : String)
  | request (endpoint : String) (body : Dict)

/-- `CandidatesResource.search`: build `data` from the truthy criteria
(`if email:` / `if name:`, in source order), fail on `if not data:`,
otherwise issue the single request. -/
def candidateSearch (email name : Option String) : SearchOutcome :=
  let data : Dict := []
  let data := match email with
    | some e => if e = "" then data else dictSet data "email" (.str e)
    | none => data
  let data := match name with
    | some n => if n = "" then data else dictSet data "name" (.str n)
    | none => data
  if data.isEmpty then
    .validationError "At least one of email or name must be provided"
  else
    .request "candidate.search" data

/-! ## Small Python helpers shared by the mappers -/

/-- Python `a or b` on JSON values. -/
def pyOr (a b : JsonValue) : JsonValue :=
  if truthy a then a else b

/-- Python `a or b` where either side may be `None` (`Option`). -/
def pyOrOpt (a b : Option JsonValue) : Option JsonValue :=
  match a with
  | some v => if truthy v then some v else b
  | none => b

/-- Truthiness of a value that may be Python `None`. -/
def truthyOpt : Option JsonValue → Bool
  | some v => truthy v
  | none => false

mutual

/-- Structural equality of JSON values, modelling Python `==` on the
JSON-shaped data the SDK compares (dict keys and string comparisons; the
Python quirks `True == 1` and order-insensitive dict equality never arise
on the shapes under verification). -/
def jsonBeq : JsonValue → JsonValue → Bool
  | .null, .null => true
  | .bool a, .bool b => a == b
  | .num a, .num b => a == b
  | .str a, .str b => a == b
  | .arr xs, .arr ys => jsonBeqList xs ys
  | .obj xs, .obj ys => jsonBeqObj xs ys
  | _, _ => false

def jsonBeqList : List JsonValue → List JsonValue → Bool
  | [], [] => true
  | x :: xs, y :: ys => jsonBeq x y && jsonBeqList xs ys
  | _, _ => false

def jsonBeqObj : List (String × JsonValue) → List (String × JsonValue) → Bool
  | [], [] => true
  | (k, x) :: xs, (l, y) :: ys => k == l && jsonBeq x y && jsonBeqObj xs ys
  | _, _ => false

end

/-- A Python dict keyed by arbitrary JSON values (the `answers` dict of
`parse_submission`, whose keys are field titles). -/
abbrev JDict := List (JsonValue × JsonValue)

/-- `d[k] = v` on a JSON-keyed dict (first-occurrence update, exact for
the duplicate-free dicts Python produces). -/
def jdictSet (d : JDict) (k v : JsonValue) : JDict :=
  match d with
  | [] => [(k, v)]
  | kv :: rest => if jsonBeq kv.1 k then (k, v) :: rest else kv :: jdictSet rest k v

/-! ## Entity Mappers (`models.py`) -/

/-- `models.User`: no `raw_data` field exists on this dataclass. -/
structure User where
  id : JsonValue
  first_name : JsonValue
  last_name : JsonValue
  email : JsonValue
  global_role : Option JsonValue
  is_enabled : Option JsonValue

/-- `User.from_dict`. -/
def User.from_dict (data : Dict) : User :=
  { id := dictGetD data "id" (.str "")
    first_name := dictGetD data "firstName" (.str "")
    last_name := dictGetD data "lastName" (.str "")
    email := dictGetD data "email" (.str "")
    global_role := dictGet data "globalRole"
    is_enabled := dictGet data "isEnabled" }

/-- `models.HiringTeamMember`: no `raw_data` field. -/
structure HiringTeamMember where
  user_id : JsonValue
  first_name : JsonValue
  last_name : JsonValue
  email : JsonValue
  role : JsonValue

/-- `HiringTeamMember.from_dict`. -/
def HiringTeamMember.from_dict (data : Dict) : HiringTeamMember :=
  { user_id := dictGetD data "userId" (.str "")
    first_name := dictGetD data "firstName" (.str "")
    last_name := dictGetD data "lastName" (.str "")
    email := dictGetD data "email" (.str "")
    role := dictGetD data "role" (.str "") }

/-- `models.CustomField`: no `raw_data` field. -/
structure CustomField where
  id : JsonValue
  title : JsonValue
  value : Option JsonValue

/-- `CustomField.from_dict`. -/
def CustomField.from_dict (data : Dict) : CustomField :=
  { id := dictGetD data "id" (.str "")
    title := dictGetD data "title" (.str "")
    value := dictGet data "value" }

/-- `models.Job`. -/
structure Job where
  id : JsonValue
  title : JsonValue
  status : JsonValue
  confidential : JsonValue
  employment_type : Option JsonValue
  department_id : Option JsonValue
  location_id : Option JsonValue
  job_posting_ids : JsonValue
  hiring_team : List HiringTeamMember
  custom_fields : List CustomField
  created_at : Option JsonValue
  updated_at : Option JsonValue
  opened_at : Option JsonValue
  closed_at : Option JsonValue
  raw_data : Dict

/-- `Job.from_dict`; the entries of `hiringTeam` / `customFields` are
objects in the remote protocol, each mapped by its own mapper. -/
def Job.from_dict (data : Dict) : Job :=
  { id := dictGetD data "id" (.str "")
    title := dictGetD data "title" (.str "")
    status := dictGetD data "status" (.str "")
    confidential := dictGetD data "confidential" (.bool false)
    employment_type := dictGet data "employmentType"
    department_id := dictGet data "departmentId"
    location_id := dictGet data "locationId"
    job_posting_ids := dictGetD data "jobPostingIds" (.arr [])
    hiring_team := (asList (dictGetD data "hiringTeam" (.arr []))).map
      (fun v => HiringTeamMember.from_dict (asObj v))
    custom_fields := (asList (dictGetD data "customFields" (.arr []))).map
      (fun v => CustomField.from_dict (asObj v))
    created_at := dictGet data "createdAt"
    updated_at := dictGet data "updatedAt"
    opened_at := dictGet data "openedAt"
    closed_at := dictGet data "closedAt"
    raw_data := data }

/-- `models.JobPosting`. -/
structure JobPosting where
  id : JsonValue
  title : JsonValue
  job_id : JsonValue
  location_ids : JsonValue
  is_listed : JsonValue
  is_live : JsonValue
  employment_type : Option JsonValue
  description_plain : Option JsonValue
  description_html : Option JsonValue
  published_at : Option JsonValue
  updated_at : Option JsonValue
  raw_data : Dict

/-- `JobPosting.from_dict`. -/
def JobPosting.from_dict (data : Dict) : JobPosting :=
  { id := dictGetD data "id" (.str "")
    title := dictGetD data "title" (.str "")
    job_id := dictGetD data "jobId" (.str "")
    location_ids := dictGetD data "locationIds" (.arr [])
    is_listed := dictGetD data "isListed" (.bool true)
    is_live := dictGetD data "isLive" (.bool true)
    employment_type := dictGet data "employmentType"
    description_plain := dictGet data "descriptionPlain"
    description_html := dictGet data "descriptionHtml"
    published_at := dictGet data "publishedAt"
    updated_at := dictGet data "updatedAt"
    raw_data := data }

/-- `models.InterviewStage`. -/
structure InterviewStage where
  id : JsonValue
  name : JsonValue
  order_in_stage_group : Option JsonValue
  stage_group_id : Option JsonValue
  stage_group_name : Option JsonValue
  type : Option JsonValue
  interview_plan_id : Option JsonValue
  raw_data : Dict

/-- `InterviewStage.from_dict`: `None` on a falsy input
(`if not data: return None`), otherwise the mapped stage with the
original dict retained in `raw_data`. -/
def InterviewStage.from_dict (data : Dict) : Option InterviewStage :=
  if data.isEmpty then none
  else
    let stage_group := dictGetD data "interviewStageGroup" (.obj [])
    some
      { id := dictGetD data "id" (.str "")
        name := pyOr (dictGetD data "title" (.str "")) (dictGetD data "name" (.str ""))
        order_in_stage_group :=
          pyOrOpt (dictGet data "orderInStageGroup") (dictGet data "orderInInterviewPlan")
        stage_group_id := pyOrOpt (dictGet data "stageGroupId") (objGet stage_group "id")
        stage_group_name := objGet stage_group "name"
        type := dictGet data "type"
        interview_plan_id := dictGet data "interviewPlanId"
        raw_data := data }

/-! ## Job postings (`JobPostingsResource`) -/

/-- `JobPostingsResource.list(job_id)`: map every paginated posting dict,
then filter client-side on `p.job_id == job_id` when `job_id` is truthy. -/
def jobPostingsList (postingDicts : List Dict) (job_id : String) : List JobPosting :=
  let all_postings := postingDicts.map JobPosting.from_dict
  if job_id = "" then all_postings
  else all_postings.filter (fun p => pyEqStr p.job_id job_id)

/-- The sort key `p.updated_at or ""` of `get_for_job`.  On the protocol
shapes under verification (`updatedAt` an ISO-8601 string, `null`, or
absent) the key is the string itself or the empty string. -/
def JobPosting.sortKey (p : JobPosting) : String :=
  match p.updated_at with
  | some (.str s) => s
  | _ => ""

/-- Hypothesis under which `JobPosting.sortKey` is exactly Python
`p.updated_at or ""`: the field is absent, `None`, or a string. -/
def JobPosting.updatedAtShaped (p : JobPosting) : Bool :=
  match p.updated_at with
  | none => true
  | some .null => true
  | some (.str _) => true
  | _ => false

/-- The descending comparison of
`postings.sort(key=lambda p: p.updated_at or "", reverse=True)`. -/
def postingDescRel (a b : JobPosting) : Prop :=
  JobPosting.sortKey b ≤ JobPosting.sortKey a

instance : DecidableRel postingDescRel := fun a b =>
  inferInstanceAs (Decidable (JobPosting.sortKey b ≤ JobPosting.sortKey a))

/-- The posting-selection logic of `JobPostingsResource.get_for_job`,
acting on the mapped postings already filtered by job id: exactly one
posting wins outright; else the first exact title match when `job_title`
is truthy; else the head of the stable descending sort on
`updated_at or ""` (Python `list.sort(key, reverse=True)` is stable, as is
`List.insertionSort`).  The source finishes with `self.get(p.id)`, a
re-fetch of the chosen posting by its id; the model returns the chosen
posting itself. -/
def getForJobSelect (postings : List JobPosting) (job_title : Option String) :
    Option JobPosting :=
  match postings with
  | [] => none
  | [p] => some p
  | _ =>
    let byTitle := match job_title with
      | some t => if t = "" then none else postings.find? (fun p => pyEqStr p.title t)
      | none => none
    match byTitle with
    | some p => some p
    | none => (List.insertionSort postingDescRel postings).head?

/-- `JobPostingsResource.get_for_job(job_id, job_title)` over the oracle
list of raw posting dicts returned by the paginated `jobPosting.list`. -/
def get_for_job (postingDicts : List Dict) (job_id : String)
    (job_title : Option String) : Option JobPosting :=
  getForJobSelect (jobPostingsList postingDicts job_id) job_title

/-! ## Interview stages (`InterviewStagesResource`) -/

/-- `InterviewStagesResource.list`: map each paginated stage dict and keep
the truthy results (`if stage:` — a dataclass instance is always truthy,
so exactly the non-`None` results survive). -/
def interviewStagesList (stageDicts : List Dict) : List InterviewStage :=
  stageDicts.filterMap InterviewStage.from_dict

/-- The sort key `s.order_in_stage_group or 0` of `list_for_job`.  On the
protocol shapes under verification (`orderInStageGroup` an integer,
`null`, or absent) the key is that integer or `0`. -/
def stageOrderKey (s : InterviewStage) : Int :=
  match s.order_in_stage_group with
  | some (.num n) => n
  | _ => 0

/-- Hypothesis under which `stageOrderKey` is exactly Python
`s.order_in_stage_group or 0`: the field is `None` or an integer. -/
def InterviewStage.orderShaped (s : InterviewStage) : Bool :=
  match s.order_in_stage_group with
  | none => true
  | some .null => true
  | some (.num _) => true
  | _ => false

/-- The ascending comparison of
`sorted(stages, key=lambda s: s.order_in_stage_group or 0)`. -/
def stageAscRel (a b : InterviewStage) : Prop :=
  stageOrderKey a ≤ stageOrderKey b

instance : DecidableRel stageAscRel := fun a b =>
  inferInstanceAs (Decidable (stageOrderKey a ≤ stageOrderKey b))

instance : IsTotal InterviewStage stageAscRel :=
  ⟨fun a b => le_total (stageOrderKey a) (stageOrderKey b)⟩

instance : IsTrans InterviewStage stageAscRel :=
  ⟨fun _ _ _ => le_trans⟩

/-- The interview-plan-id discovery of
`InterviewStagesResource.list_for_job`: prefer a truthy
`defaultInterviewPlanId`, else the first entry of `interviewPlanIds`. -/
def resolvePlanId (job_data : Dict) : Option JsonValue :=
  let plan_id := dictGet job_data "defaultInterviewPlanId"
  if truthyOpt plan_id then plan_id
  else
    match asList (dictGetD job_data "interviewPlanIds" (.arr [])) with
    | x :: _ => some x
    | [] => plan_id

/-- `InterviewStagesResource.list_for_job(job_id)`: `job_data` is the
`results` object of the `job.info` response; `stagesFor pid` is the oracle
list of raw stage dicts the paginated `interviewStage.list` returns for
request body `{"interviewPlanId": pid}`.  A falsy resolved plan id returns
`[]` (`if not plan_id: return []`); otherwise the plan's stages are
sorted ascending by `order or 0` with Python's stable `sorted`. -/
def list_for_job (job_data : Dict) (stagesFor : JsonValue → List Dict) :
    List InterviewStage :=
  match resolvePlanId job_data with
  | some pid =>
    if truthy pid then
      List.insertionSort stageAscRel (interviewStagesList (stagesFor pid))
    else []
  | none => []

/-! ## Survey parsing (`SurveysResource.parse_submission`) -/

/-- The fixed `skip_fields` set of `parse_submission`. -/
def skipFields : List String :=
  ["_systemfield_resume", "_systemfield_pre_parsed_resume",
   "_systemfield_name", "_systemfield_email", "_systemfield_phone"]

/-- The field-id/path → title lookup built from the submission's embedded
form definition.  Values are the raw `field.get("title")` (possibly
`None`, stored as `null`).  A non-string `id` or `path` would become a
dict key that no string key of `submittedValues` can ever equal, so such
dead entries are dropped from the model. -/
def buildFieldMap (submission : Dict) : Dict :=
  let form_def := dictGetD submission "formDefinition" (.obj [])
  let sections := asList (objGetD form_def "sections" (.arr []))
  sections.foldl (fun fm sec =>
    (asList (objGetD sec "fields" (.arr []))).foldl (fun fm field_def =>
      let f := objGetD field_def "field" (.obj [])
      let title := (objGet f "title").getD .null
      let fm := match objGet f "id" with
        | some (.str s) => if s = "" then fm else dictSet fm s title
        | _ => fm
      match objGetD f "path" (.str "") with
      | .str s => if s = "" then fm else dictSet fm s title
      | _ => fm) fm) []

/-- The per-answer normalization of `parse_submission`: a dict prefers its
`text` entry, else its `name` entry; a boolean becomes `"Yes"`/`"No"`; a
list joins the stringified elements (`str(v.get("name", v))` for dict
elements) with `", "`. -/
def normalizeAnswer (v : JsonValue) : JsonValue :=
  match v with
  | .obj fs =>
    if dictHas fs "text" then (dictGet fs "text").getD .null
    else if dictHas fs "name" then (dictGet fs "name").getD .null
    else .obj fs
  | .bool b => .str (if b then "Yes" else "No")
  | .arr xs => .str (String.intercalate ", " (xs.map (fun x =>
      match x with
      | .obj fs => pyStr ((dictGet fs "name").getD (.obj fs))
      | x => pyStr x)))
  | v => v

/-- Whether an entry of `submittedValues` survives the two skip rules of
`parse_submission`: the five fixed system fields are dropped always, and
any other `_systemfield_`-prefixed key is dropped unless the form
definition declares it. -/
def answerKept (field_map : Dict) (field_key : String) : Bool :=
  !(skipFields.contains field_key) &&
    !(field_key.startsWith "_systemfield_" && !dictHas field_map field_key)

/-- The title `field_map.get(field_key, field_key)` an answer is stored
under. -/
def answerTitle (field_map : Dict) (field_key : String) : JsonValue :=
  (dictGet field_map field_key).getD (.str field_key)

/-- The entries of `submittedValues` of a submission. -/
def submittedEntries (sub : Dict) : Dict :=
  asObj (dictGetD sub "submittedValues" (.obj []))

/-- The `answers` dict built by the loop of `parse_submission`: for each
surviving entry, the answer is stored under
`field_map.get(field_key, field_key)`. -/
def parseAnswers (submission : Dict) : JDict :=
  let field_map := buildFieldMap submission
  (submittedEntries submission).foldl (fun answers kv =>
    if answerKept field_map kv.1 then
      jdictSet answers (answerTitle field_map kv.1) (normalizeAnswer kv.2)
    else answers) []

/-- The full result of `parse_submission`. -/
structure ParsedSubmission where
  submitted_at : Option JsonValue
  candidate_id : Option JsonValue
  application_id : Option JsonValue
  survey_type : Option JsonValue
  form_id : Option JsonValue
  answers : JDict

/-- `SurveysResource.parse_submission`. -/
def parse_submission (submission : Dict) : ParsedSubmission :=
  { submitted_at := dictGet submission "submittedAt"
    candidate_id := dictGet submission "candidateId"
    application_id := dictGet submission "applicationId"
    survey_type := dictGet submission "surveyType"
    form_id := dictGet submission "id"
    answers := parseAnswers submission }

/-! ## Derived notions used by the statements -/

/-- `response.get("moreDataAvailable", False)` of a page envelope, as the
paginator tests it. -/
def pageMore (p : Dict) : Bool :=
  truthy (dictGetD p "moreDataAvailable" (.bool false))

/-- `response.get("results", [])` of a page envelope, as the paginator
iterates it. -/
def pageResults (p : Dict) : List JsonValue :=
  asList (dictGetD p "results" (.arr []))

/-- `response.get("nextCursor")` of a page envelope. -/
def pageCursor (p : Dict) : Option JsonValue :=
  dictGet p "nextCursor"

/-- The cursor value of a page envelope (`null` standing for Python
`None` when the field is absent). -/
def cursorVal (p : Dict) : JsonValue :=
  (pageCursor p).getD .null

/-- The well-formed page sequence of the pagination claims: at least one
page, every page but the last announcing more data with a truthy cursor,
and the last page announcing no more data. -/
structure IsPageSeq (ps : List Dict) : Prop where
  ne : ps ≠ []
  more : ∀ p ∈ ps.dropLast, pageMore p = true
  cursorTruthy : ∀ p ∈ ps.dropLast, truthyOpt (pageCursor p) = true
  lastDone : ∀ p, ps.getLast? = some p → pageMore p = false

/-- A protocol-violating page envelope: it announces more data but gives
no cursor. -/
def badPage : Dict :=
  [("success", .bool true),
   ("results", .arr [.obj [("id", .str "x1")]]),
   ("moreDataAvailable", .bool true)]

/-- The single item of `badPage`. -/
def badItem : JsonValue := .obj [("id", .str "x1")]

/-- A first page envelope: two items, more data available, cursor
`cur1`. -/
def pageA : Dict :=
  [("success", .bool true),
   ("results", .arr [.obj [("id", .str "a1")], .obj [("id", .str "a2")]]),
   ("moreDataAvailable", .bool true),
   ("nextCursor", .str "cur1")]

/-- A final page envelope: one item, no more data. -/
def pageB : Dict :=
  [("success", .bool true),
   ("results", .arr [.obj [("id", .str "a3")]]),
   ("moreDataAvailable", .bool false)]

/-- A `job.info` results object declaring a default interview plan. -/
def jobDataEx : Dict := [("defaultInterviewPlanId", .str "plan1")]

/-- Stage dicts with `orderInStageGroup` values `2`, absent, and `1`. -/
def stageDictsEx : List Dict :=
  [[("id", .str "s2"), ("title", .str "Onsite"), ("orderInStageGroup", .num 2)],
   [("id", .str "s0"), ("title", .str "Chat")],
   [("id", .str "s1"), ("title", .str "Screen"), ("orderInStageGroup", .num 1)]]

/-- A stage-list oracle returning `stageDictsEx` for every plan id. -/
def stagesForEx : JsonValue → List Dict := fun _ => stageDictsEx

/-- Two raw posting dicts for job `j1` with distinct titles and
timestamps. -/
def postingDictsEx : List Dict :=
  [[("id", .str "p1"), ("jobId", .str "j1"), ("title", .str "Engineer NYC"),
    ("updatedAt", .str "2024-01-01")],
   [("id", .str "p2"), ("jobId", .str "j1"), ("title", .str "Engineer SF"),
    ("updatedAt", .str "2024-02-01")]]

/-- The first element of a posting list attaining the maximal
`updated_at or ""` key — the deterministic choice a stable descending
sort puts in front. -/
def firstMaxByKey : List JobPosting → Option JobPosting
  | [] => none
  | x :: xs =>
    match firstMaxByKey xs with
    | none => some x
    | some y => if JobPosting.sortKey x < JobPosting.sortKey y then some y else some x

/-- All keys of the list pairwise distinct under `jsonBeq` (checked in
both orientations). -/
def distinctKeys : List JsonValue → Bool
  | [] => true
  | k :: rest =>
    rest.all (fun k2 => !jsonBeq k k2 && !jsonBeq k2 k) && distinctKeys rest

/-- A submission whose form definition explicitly declares the system
field `_systemfield_name` as a real form field titled `Full Name`, and
whose submitted values answer it. -/
def subWithSystemField : Dict :=
  [("formDefinition", .obj
      [("sections", .arr
        [.obj [("fields", .arr
          [.obj [("field", .obj
            [("id", .str "_systemfield_name"),
             ("title", .str "Full Name")])]])]])]),
   ("submittedValues", .obj [("_systemfield_name", .str "Alice")])]

/-- The spec's first form-parsing example: field map
`{"f1": "Remote OK?"}`, submitted value `{"f1": true}`. -/
def subBoolExample : Dict :=
  [("formDefinition", .obj
      [("sections", .arr
        [.obj [("fields", .arr
          [.obj [("field", .obj
            [("id", .str "f1"), ("title", .str "Remote OK?")])]])]])]),
   ("submittedValues", .obj [("f1", .bool true)])]

/-- The spec's second form-parsing example: field map `{"f2": "Skills"}`,
submitted value a list of named objects. -/
def subListExample : Dict :=
  [("formDefinition", .obj
      [("sections", .arr
        [.obj [("fields", .arr
          [.obj [("field", .obj
            [("id", .str "f2"), ("title", .str "Skills")])]])]])]),
   ("submittedValues", .obj
      [("f2", .arr [.obj [("name", .str "Python")], .obj [("name", .str "Go")]])])]

/-! # Helper lemmas -/

theorem dictSet_dictSet (d : Dict) (k : String) (v w : JsonValue) :
    dictSet (dictSet d k v) k w = dictSet d k w := by
  induction d with
  | nil => simp [dictSet]
  | cons kv rest ih =>
    by_cases h : kv.1 = k
    · simp [dictSet, h]
    · simp [dictSet, h, ih]

theorem paginateLoop_callerData (rs : List Dict) (st : PagCells) (c : Option JsonValue) :
    (paginateLoop rs st c).1.callerData = st.callerData := by
  induction rs generalizing st c with
  | nil => rfl
  | cons r rest ih =>
    unfold paginateLoop
    by_cases hm : truthy (dictGetD r "moreDataAvailable" (.bool false)) = true
    · simp only [hm, if_true]
      exact ih _ _
    · simp only [hm]
      simp

theorem paginateLoop_cursor_some (ps : List Dict) (st : PagCells) (c : JsonValue)
    (hc : truthy c = true) :
    (paginateLoop ps st (some c)).2 =
      (paginateLoop ps ⟨st.callerData, dictSet st.requestData "cursor" c⟩ none).2 := by
  cases ps with
  | nil => rfl
  | cons r rest => simp [paginateLoop, hc]

theorem badPage_loop (n : Nat) (st : PagCells) :
    (paginateLoop (List.replicate n badPage) st none).2 =
      ⟨List.replicate n st.requestData, List.replicate n badItem, false⟩ := by
  induction n generalizing st with
  | zero => rfl
  | succ n ih =>
    rw [List.replicate_succ]
    have hnext : dictGet badPage "nextCursor" = none := rfl
    have hmore : truthy (dictGetD badPage "moreDataAvailable" (.bool false)) = true := rfl
    have hres : asList (dictGetD badPage "results" (.arr [])) = [badItem] := rfl
    unfold paginateLoop
    simp only [hmore, if_true, hnext, hres, ih ⟨st.callerData, st.requestData⟩]
    simp [List.replicate_succ]

theorem paginateLoop_trace (ps : List Dict) (st : PagCells) (h : IsPageSeq ps) :
    (paginateLoop ps st none).2 =
      ⟨st.requestData ::
         ps.dropLast.map (fun p => dictSet st.requestData "cursor" (cursorVal p)),
       (ps.map pageResults).flatten, true⟩ := by
  induction ps generalizing st with
  | nil => exact absurd rfl h.ne
  | cons p rest ih =>
    cases rest with
    | nil =>
      have hl : pageMore p = false := h.lastDone p rfl
      simp only [pageMore] at hl
      unfold paginateLoop
      simp [hl, pageResults]
    | cons q rest2 =>
      have hm : pageMore p = true := h.more p (by simp [List.dropLast_cons₂])
      have hct : truthyOpt (pageCursor p) = true := h.cursorTruthy p (by simp [List.dropLast_cons₂])
      obtain ⟨c, hcv, hc⟩ : ∃ c, pageCursor p = some c ∧ truthy c = true := by
        cases hpc : pageCursor p with
        | none => rw [hpc] at hct; simp [truthyOpt] at hct
        | some c =>
          rw [hpc] at hct
          exact ⟨c, rfl, by simpa [truthyOpt] using hct⟩
      have hrest : IsPageSeq (q :: rest2) := by
        refine ⟨by simp, ?_, ?_, ?_⟩
        · intro x hx
          refine h.more x ?_
          rw [List.dropLast_cons₂]
          exact List.mem_cons_of_mem p hx
        · intro x hx
          refine h.cursorTruthy x ?_
          rw [List.dropLast_cons₂]
          exact List.mem_cons_of_mem p hx
        · intro x hx
          exact h.lastDone x (by rw [List.getLast?_cons_cons]; exact hx)
      have hmb : truthy (dictGetD p "moreDataAvailable" (.bool false)) = true := hm
      have step := paginateLoop_cursor_some (q :: rest2)
        ⟨st.callerData, st.requestData⟩ c hc
      have tail := ih ⟨st.callerData, dictSet st.requestData "cursor" c⟩ hrest
      have hcv' : dictGet p "nextCursor" = some c := hcv
      unfold paginateLoop
      simp only [hmb, if_true, hcv']
      simp only [step, tail]
      have hcval : cursorVal p = c := by simp [cursorVal, hcv]
      simp [List.dropLast_cons₂, hcval, dictSet_dictSet, pageResults]

/-! # Claim theorems -/

/-- C1: for every endpoint, caller parameter dict, page size, and
well-formed page sequence (every page but the last announcing more data
with a truthy cursor, the last announcing no more), the paginator yields
exactly the concatenation of the pages' results lists in order, issues
exactly one request per page, terminates by the loop's `break`, sends
`base ∪ {limit}` as the first request, and sends, as every later request,
the first request with exactly the `cursor` key set to the immediately
preceding response's `nextCursor` — no other parameter changed. -/
theorem c1_pagination_completeness (endpoint : String) (base : Dict) (limit : Int)
    (ps : List Dict) (h : IsPageSeq ps) :
    (paginate endpoint (some base) limit ps).yielded = (ps.map pageResults).flatten ∧
    (paginate endpoint (some base) limit ps).requests.length = ps.length ∧
    (paginate endpoint (some base) limit ps).finished = true ∧
    (paginate endpoint (some base) limit ps).requests.head? =
      some (dictSet base "limit" (.num limit)) ∧
    (∀ i, ∀ hi : i + 1 < (paginate endpoint (some base) limit ps).requests.length,
      ∀ hp : i < ps.length,
      (paginate endpoint (some base) limit ps).requests.get ⟨i + 1, hi⟩ =
        dictSet (dictSet base "limit" (.num limit)) "cursor"
          (cursorVal (ps.get ⟨i, hp⟩))) := by
  have htr := paginateLoop_trace ps ⟨some base, dictSet base "limit" (.num limit)⟩ h
  have hpag : paginate endpoint (some base) limit ps =
      ⟨dictSet base "limit" (.num limit) ::
         ps.dropLast.map (fun p => dictSet (dictSet base "limit" (.num limit)) "cursor" (cursorVal p)),
       (ps.map pageResults).flatten, true⟩ := by
    unfold paginate paginateRun
    exact htr
  refine ⟨by rw [hpag], ?_, by rw [hpag], by rw [hpag]; rfl, ?_⟩
  · rw [hpag]
    simp only [List.length_cons, List.length_map, List.length_dropLast]
    have : ps.length ≠ 0 := fun h0 => h.ne (List.length_eq_zero.mp h0)
    omega
  · intro i hi hp
    have hi2 : i < ps.dropLast.length := by
      rw [hpag] at hi
      simpa using hi
    rw [List.get_eq_getElem]
    simp only [hpag]
    rw [List.getElem_cons_succ]
    rw [List.getElem_map]
    rw [List.getElem_dropLast]
    simp [List.get_eq_getElem]

/-- C10: for every caller-supplied parameter dict `d`, page size, and run
of the paginator against any server behaviour (so in particular after any
prefix of the pagination), the caller's dict object is left unchanged:
`limit` and `cursor` are written only to the generator's private copy. -/
theorem c10_caller_dict_unchanged (endpoint : String) (d : Dict) (limit : Int)
    (responses : List Dict) :
    (paginateRun endpoint (some d) limit responses).1.callerData = some d := by
  unfold paginateRun
  exact paginateLoop_callerData responses _ none

/-- C2 (evidence of the code bug): on a page envelope that announces
`moreDataAvailable=true` but carries no `nextCursor`, `_paginate` raises
nothing and never breaks: against `n` such responses it issues `n`
requests, all identical to the first (the cursor is never attached because
`response.get("nextCursor")` is `None`), yields the page's items each
time, and is still asking for more (`finished = false`) for every `n` —
the generator loops forever instead of failing with `AshbyAPIError`. -/
theorem c2_missing_cursor_loops_forever (n : Nat) :
    paginate "surveySubmission.list" (some []) 100 (List.replicate n badPage) =
      ⟨List.replicate n [("limit", .num 100)], List.replicate n badItem, false⟩ := by
  unfold paginate paginateRun
  exact badPage_loop n ⟨some [], [("limit", .num 100)]⟩

/-- C4: `GenericResource.get(id)` fails with the unsupported-operation
error (raising before any request reaches the transport) whenever the
descriptor's single-fetch flag is off; with the flag on it issues the one
request `{idParamName: id}` to `<endpoint>.info` and maps
`response.get("results", {})`, where the id-parameter name is
`<endpoint>Id` unless a (non-empty) override was supplied. -/
theorem c4_generic_get_gating (r : GenericResource) (id : String) (response : Dict) :
    (r.supportsGet = false →
      r.get id response =
        .unsupported ("The " ++ r.endpoint ++ " endpoint does not support .info (get by ID)")) ∧
    (r.supportsGet = true →
      r.get id response =
        .fetched (r.endpoint ++ ".info") [(r.idParamName, .str id)]
          (dictGetD response "results" (.obj []))) ∧
    (r.idParam = none → r.idParamName = r.endpoint ++ "Id") ∧
    (∀ s, r.idParam = some s → s ≠ "" → r.idParamName = s) := by
  refine ⟨?_, ?_, ?_, ?_⟩
  · intro h
    simp [GenericResource.get, h]
  · intro h
    simp [GenericResource.get, h]
  · intro h
    simp [GenericResource.idParamName, h]
  · intro s hs hne
    simp [GenericResource.idParamName, hs, hne]

/-- Witness for C4 at two concrete descriptors: a list-only resource
rejects `get`, a single-fetch resource issues the defaulted request. -/
theorem c4_generic_get_gating_witness :
    (GenericResource.get ⟨"source", false, none⟩ "abc" [] =
      .unsupported "The source endpoint does not support .info (get by ID)") ∧
    (GenericResource.get ⟨"department", true, none⟩ "d1"
        [("results", .obj [("id", .str "d1")])] =
      .fetched "department.info" [("departmentId", .str "d1")] (.obj [("id", .str "d1")])) := by
  constructor
  · exact (c4_generic_get_gating ⟨"source", false, none⟩ "abc" []).1 rfl
  · exact (c4_generic_get_gating ⟨"department", true, none⟩ "d1"
      [("results", .obj [("id", .str "d1")])]).2.1 rfl

/-- C5: `CandidatesResource.search` raises the validation error before
any request when called with no criterion; with only a (truthy) email it
issues exactly one request whose body holds only the email filter; and in
every case its outcome is either that pre-request validation failure or a
single un-paginated request to `candidate.search`. -/
theorem c5_search_requires_criterion :
    candidateSearch none none =
      .validationError "At least one of email or name must be provided" ∧
    (∀ e, e ≠ "" →
      candidateSearch (some e) none = .request "candidate.search" [("email", .str e)]) ∧
    (∀ email name,
      (∃ m, candidateSearch email name = .validationError m) ∨
      (∃ body, candidateSearch email name = .request "candidate.search" body)) := by
  refine ⟨rfl, ?_, ?_⟩
  · intro e he
    simp [candidateSearch, dictSet, he]
  · intro email name
    simp only [candidateSearch]
    split
    · exact Or.inl ⟨_, rfl⟩
    · exact Or.inr ⟨_, rfl⟩

/-- Witness for C5: the email-only search at a concrete address. -/
theorem c5_search_requires_criterion_witness :
    candidateSearch (some "john@example.com") none =
      .request "candidate.search" [("email", .str "john@example.com")] :=
  c5_search_requires_criterion.2.1 "john@example.com" (by decide)

/-- C9 counterexample: `User.from_dict` keeps no raw payload — two
different raw objects map to the same `User`, so the original JSON cannot
be recovered from the mapped entity, contradicting "every mapper
preserves the original raw JSON object". -/
theorem c9_user_mapper_drops_raw :
    User.from_dict [("id", .str "u1")] =
      User.from_dict [("id", .str "u1"), ("note", .str "extra")] ∧
    ([("id", .str "u1")] : Dict) ≠ [("id", .str "u1"), ("note", .str "extra")] := by
  refine ⟨rfl, fun h => ?_⟩
  simpa using congrArg List.length h

/-- C9 amended: the top-level entity mappers carrying a `raw_data` field
(`Job`, `JobPosting`, `InterviewStage`, …) store the original dict on the
entity unmodified; the small nested mappers such as `User` do not. -/
theorem c9_raw_retention (d : Dict) :
    (Job.from_dict d).raw_data = d ∧
    (JobPosting.from_dict d).raw_data = d ∧
    (∀ s, InterviewStage.from_dict d = some s → s.raw_data = d) := by
  refine ⟨rfl, rfl, ?_⟩
  intro s hs
  unfold InterviewStage.from_dict at hs
  split at hs
  · cases hs
  · cases hs
    rfl

/-- Witness for C9 at concrete raw objects. -/
theorem c9_raw_retention_witness :
    (Job.from_dict [("id", .str "j1")]).raw_data = [("id", .str "j1")] ∧
    ∃ s, InterviewStage.from_dict [("id", .str "s1")] = some s ∧
      s.raw_data = [("id", .str "s1")] :=
  ⟨(c9_raw_retention [("id", .str "j1")]).1,
   ⟨_, rfl, (c9_raw_retention [("id", .str "s1")]).2.2 _ rfl⟩⟩

/-- C3 counterexample: a 2xx body with `success=false`, no `errorInfo`,
and errors `["first", "second"]` is classified as `AshbyAPIError` whose
message is `API error: ` followed by the `str()` rendering of the whole
errors list — not the first entry of the list as the claim states. -/
theorem c3_error_message_counterexample :
    classifyResponse 200
        [("success", .bool false), ("errors", .arr [.str "first", .str "second"])] =
      .apiError ("API error: [" ++ sq ++ "first" ++ sq ++ ", " ++ sq ++ "second" ++ sq ++ "]")
        (.arr [.str "first", .str "second"]) ∧
    ("API error: [" ++ sq ++ "first" ++ sq ++ ", " ++ sq ++ "second" ++ sq ++ "]" : String) ≠
      "first" := by
  refine ⟨rfl, ?_⟩
  decide

/-- C3 amended: the classification chain of `_request` — a 401 fails with
the auth error kind and its invalid-key message; a 403 fails with the
*same* auth error kind and the permission message (no distinct Forbidden
kind exists); any other status in 400..599 fails as a transport error
carrying the status; a response below 400 whose body has a truthy
`success` flag is returned unchanged; with a falsy `success` flag it
fails as `AshbyAPIError` whose message is `API error: ` followed by the
`errorInfo` message when `errorInfo` is non-empty (the rendering of
Python `None` when that field is missing), and else by the `str()`
rendering of the whole `errors` list — never an "unknown error" text. -/
theorem c3_error_classification (status : Nat) (body : Dict) :
    (status = 401 → classifyResponse status body = .authError "Invalid or missing API key") ∧
    (status = 403 → classifyResponse status body =
      .authError "API key does not have permission for this endpoint") ∧
    (status ≠ 401 → status ≠ 403 → 400 ≤ status → status < 600 →
      classifyResponse status body = .httpError status) ∧
    (status < 400 → truthy (dictGetD body "success" (.bool false)) = true →
      classifyResponse status body = .ok body) ∧
    (status < 400 → truthy (dictGetD body "success" (.bool false)) = false →
      truthy (dictGetD body "errorInfo" (.obj [])) = true →
      ∀ m, objGet (dictGetD body "errorInfo" (.obj [])) "message" = some m →
        classifyResponse status body =
          .apiError ("API error: " ++ pyStr m) (dictGetD body "errors" (.arr []))) ∧
    (status < 400 → truthy (dictGetD body "success" (.bool false)) = false →
      truthy (dictGetD body "errorInfo" (.obj [])) = true →
      objGet (dictGetD body "errorInfo" (.obj [])) "message" = none →
      classifyResponse status body =
        .apiError "API error: None" (dictGetD body "errors" (.arr []))) ∧
    (status < 400 → truthy (dictGetD body "success" (.bool false)) = false →
      truthy (dictGetD body "errorInfo" (.obj [])) = false →
      classifyResponse status body =
        .apiError ("API error: " ++ pyStr (dictGetD body "errors" (.arr [])))
          (dictGetD body "errors" (.arr []))) := by
  refine ⟨?_, ?_, ?_, ?_, ?_, ?_, ?_⟩
  · intro h
    simp [classifyResponse, h]
  · intro h
    subst h
    simp [classifyResponse]
  · intro h1 h2 h3 h4
    simp [classifyResponse, h1, h2, h3, h4]
  · intro h1 h2
    have n1 : status ≠ 401 := by omega
    have n2 : status ≠ 403 := by omega
    have n3 : ¬(400 ≤ status ∧ status < 600) := by omega
    simp [classifyResponse, n1, n2, n3, h2]
  · intro h1 h2 h3 m h4
    have n1 : status ≠ 401 := by omega
    have n2 : status ≠ 403 := by omega
    have n3 : ¬(400 ≤ status ∧ status < 600) := by omega
    simp [classifyResponse, n1, n2, n3, h2, h3, h4]
  · intro h1 h2 h3 h4
    have n1 : status ≠ 401 := by omega
    have n2 : status ≠ 403 := by omega
    have n3 : ¬(400 ≤ status ∧ status < 600) := by omega
    simp [classifyResponse, n1, n2, n3, h2, h3, h4]
    decide
  · intro h1 h2 h3
    have n1 : status ≠ 401 := by omega
    have n2 : status ≠ 403 := by omega
    have n3 : ¬(400 ≤ status ∧ status < 600) := by omega
    simp [classifyResponse, n1, n2, n3, h2, h3]

/-- Witness for C3 at concrete responses: a 401, a 403, a 500, a success
body, and a failure body with an `errorInfo` message. -/
theorem c3_error_classification_witness :
    classifyResponse 401 [] = .authError "Invalid or missing API key" ∧
    classifyResponse 403 [] = .authError "API key does not have permission for this endpoint" ∧
    classifyResponse 500 [] = .httpError 500 ∧
    classifyResponse 200 [("success", .bool true), ("results", .arr [])] =
      .ok [("success", .bool true), ("results", .arr [])] ∧
    classifyResponse 200
        [("success", .bool false), ("errorInfo", .obj [("message", .str "boom")])] =
      .apiError "API error: boom" (.arr []) := by
  refine ⟨(c3_error_classification 401 []).1 rfl,
    (c3_error_classification 403 []).2.1 rfl,
    (c3_error_classification 500 []).2.2.1 (by decide) (by decide) (by decide) (by decide),
    (c3_error_classification 200
      [("success", .bool true), ("results", .arr [])]).2.2.2.1 (by decide) rfl,
    ?_⟩
  have h := (c3_error_classification 200
      [("success", .bool false), ("errorInfo", .obj [("message", .str "boom")])]
    ).2.2.2.2.1 (by decide) rfl rfl (.str "boom") rfl
  exact h

/-! # Sorting helper lemmas -/

theorem filter_orderedInsert {α : Type} (r : α → α → Prop) [DecidableRel r]
    (p : α → Bool) (x : α) (t : List α)
    (hx : ∀ y ∈ t, ¬r x y → p x = true → p y = false) :
    (t.orderedInsert r x).filter p =
      if p x then x :: t.filter p else t.filter p := by
  induction t with
  | nil =>
    cases hpx : p x <;> simp [List.orderedInsert, List.filter, hpx]
  | cons y ys ih =>
    by_cases hr : r x y
    · cases hpx : p x <;> simp [List.orderedInsert, hr, hpx, List.filter_cons]
    · have ih2 := ih (fun z hz => hx z (List.mem_cons_of_mem y hz))
      cases hpx : p x with
      | false =>
        rw [List.orderedInsert, if_neg hr]
        cases hpy : p y <;>
          simp [List.filter_cons, hpy, hpx, ih2]
      | true =>
        have hpy : p y = false := hx y (List.mem_cons_self y ys) hr hpx
        rw [List.orderedInsert, if_neg hr]
        simp [List.filter_cons, hpy, hpx, ih2]

theorem insertionSort_filter {α : Type} (r : α → α → Prop) [DecidableRel r]
    (p : α → Bool) (hcomp : ∀ x y, ¬r x y → p x = true → p y = false)
    (l : List α) :
    (List.insertionSort r l).filter p = l.filter p := by
  induction l with
  | nil => rfl
  | cons x l ih =>
    rw [List.insertionSort]
    rw [filter_orderedInsert r p x _ (fun y _ => hcomp x y)]
    cases hpx : p x <;> simp [List.filter_cons, hpx, ih]

theorem firstMaxByKey_eq_none (l : List JobPosting) :
    firstMaxByKey l = none ↔ l = [] := by
  cases l with
  | nil => simp [firstMaxByKey]
  | cons x xs =>
    simp only [firstMaxByKey]
    cases firstMaxByKey xs <;> simp
    split <;> simp

theorem firstMaxByKey_spec (l : List JobPosting) (p : JobPosting)
    (h : firstMaxByKey l = some p) :
    ∃ i, ∃ hi : i < l.length, l.get ⟨i, hi⟩ = p ∧
      (∀ q ∈ l, JobPosting.sortKey q ≤ JobPosting.sortKey p) ∧
      (∀ j, ∀ hj : j < i, JobPosting.sortKey (l.get ⟨j, hj.trans hi⟩) <
        JobPosting.sortKey p) := by
  induction l generalizing p with
  | nil => cases h
  | cons x xs ih =>
    rw [firstMaxByKey] at h
    cases hfm : firstMaxByKey xs with
    | none =>
      rw [hfm] at h
      injection h with h
      subst h
      have hxs : xs = [] := (firstMaxByKey_eq_none xs).mp hfm
      subst hxs
      refine ⟨0, by simp, rfl, ?_, fun j hj => absurd hj (Nat.not_lt_zero j)⟩
      intro q hq
      rw [List.mem_singleton.mp hq]
    | some y =>
      rw [hfm] at h
      have h2 : (if JobPosting.sortKey x < JobPosting.sortKey y then some y else some x) =
          some p := h
      by_cases hlt : JobPosting.sortKey x < JobPosting.sortKey y
      · rw [if_pos hlt] at h2
        injection h2 with h
        subst h
        obtain ⟨i, hi, hieq, hmax, hbefore⟩ := ih _ hfm
        refine ⟨i + 1, Nat.succ_lt_succ hi, hieq, ?_, ?_⟩
        · intro q hq
          rcases List.mem_cons.mp hq with rfl | hq2
          · exact le_of_lt hlt
          · exact hmax q hq2
        · intro j hj
          cases j with
          | zero => exact hlt
          | succ j2 => exact hbefore j2 (Nat.lt_of_succ_lt_succ hj)
      · rw [if_neg hlt] at h2
        injection h2 with h
        subst h
        obtain ⟨i, hi, hieq, hmax, _⟩ := ih y hfm
        refine ⟨0, Nat.zero_lt_succ _, rfl, ?_, fun j hj => absurd hj (Nat.not_lt_zero j)⟩
        intro q hq
        rcases List.mem_cons.mp hq with rfl | hq2
        · exact le_refl _
        · exact le_trans (hmax q hq2) (not_lt.mp hlt)

theorem insertionSort_desc_head (l : List JobPosting) :
    (List.insertionSort postingDescRel l).head? = firstMaxByKey l := by
  induction l with
  | nil => rfl
  | cons x l ih =>
    rw [List.insertionSort, firstMaxByKey]
    cases hfm : firstMaxByKey l with
    | none =>
      have : l = [] := (firstMaxByKey_eq_none l).mp hfm
      subst this
      rfl
    | some y =>
      rw [hfm] at ih
      cases hsl : List.insertionSort postingDescRel l with
      | nil => rw [hsl] at ih; cases ih
      | cons z zs =>
        rw [hsl] at ih
        have hz : z = y := by
          simpa using ih
        subst hz
        rw [List.orderedInsert]
        by_cases hr : postingDescRel x z
        · have hnlt : ¬JobPosting.sortKey x < JobPosting.sortKey z := not_lt.mpr hr
          simp [hr, hnlt]
        · have hlt : JobPosting.sortKey x < JobPosting.sortKey z :=
            not_le.mp (fun hle => hr hle)
          simp [hr, hlt]

/-- C6: the `get_for_job` tie-break over the client-side-filtered postings
`ps` of the requested job: no postings gives `None` (not an error); a
single posting wins outright; otherwise an exact title match (when one
exists) is returned regardless of update timestamps; otherwise the
posting returned is the first one attaining the maximal
`updated_at or ""` key — maximal among all, and strictly above every
earlier posting, i.e. the deterministic head of the stable descending
sort.  `hshape` scopes the run to protocol-shaped `updatedAt` values
(string, `null`, or absent), on which the embedded key is exactly
Python's. -/
theorem c6_posting_tie_break (postingDicts : List Dict) (job_id job_title : String)
    (ps : List JobPosting) (hps : ps = jobPostingsList postingDicts job_id)
    (htitle : job_title ≠ "")
    (hshape : ∀ p ∈ ps, p.updatedAtShaped = true) :
    (ps = [] → get_for_job postingDicts job_id (some job_title) = none) ∧
    (∀ p, ps = [p] → get_for_job postingDicts job_id (some job_title) = some p) ∧
    (2 ≤ ps.length → (∃ p ∈ ps, pyEqStr p.title job_title = true) →
      ∃ p, get_for_job postingDicts job_id (some job_title) = some p ∧ p ∈ ps ∧
        pyEqStr p.title job_title = true) ∧
    (2 ≤ ps.length → (∀ p ∈ ps, pyEqStr p.title job_title = false) →
      ∃ i, ∃ hi : i < ps.length,
        get_for_job postingDicts job_id (some job_title) = some (ps.get ⟨i, hi⟩) ∧
        (∀ q ∈ ps, JobPosting.sortKey q ≤ JobPosting.sortKey (ps.get ⟨i, hi⟩)) ∧
        (∀ j, ∀ hj : j < i, JobPosting.sortKey (ps.get ⟨j, hj.trans hi⟩) <
          JobPosting.sortKey (ps.get ⟨i, hi⟩))) := by
  have hsel : get_for_job postingDicts job_id (some job_title) =
      getForJobSelect ps (some job_title) := by
    rw [hps]
    rfl
  refine ⟨?_, ?_, ?_, ?_⟩
  · intro h0
    rw [hsel, h0]
    rfl
  · intro p hp
    rw [hsel, hp]
    rfl
  · intro hlen hex
    obtain ⟨a, b, rest, hshape2⟩ : ∃ a b rest, ps = a :: b :: rest := by
      cases hl : ps with
      | nil => rw [hl] at hlen; simp at hlen
      | cons a t =>
        cases t with
        | nil => rw [hl] at hlen; simp at hlen
        | cons b rest => exact ⟨a, b, rest, rfl⟩
    rw [hshape2] at hex hsel
    have hfs : ((a :: b :: rest).find? (fun p => pyEqStr p.title job_title)).isSome := by
      rw [List.find?_isSome]
      obtain ⟨p, hpm, hp⟩ := hex
      exact ⟨p, hpm, hp⟩
    obtain ⟨q, hq⟩ := Option.isSome_iff_exists.mp hfs
    refine ⟨q, ?_, ?_, by simpa using List.find?_some hq⟩
    · rw [hsel]
      simp [getForJobSelect, htitle, hq]
    · rw [hshape2]
      exact List.mem_of_find?_eq_some hq
  · intro hlen hnone
    obtain ⟨a, b, rest, hshape2⟩ : ∃ a b rest, ps = a :: b :: rest := by
      cases hl : ps with
      | nil => rw [hl] at hlen; simp at hlen
      | cons a t =>
        cases t with
        | nil => rw [hl] at hlen; simp at hlen
        | cons b rest => exact ⟨a, b, rest, rfl⟩
    subst hshape2
    have hfind : (a :: b :: rest).find? (fun p => pyEqStr p.title job_title) = none :=
      List.find?_eq_none.mpr (fun x hx => by simp [hnone x hx])
    have hres : get_for_job postingDicts job_id (some job_title) =
        (List.insertionSort postingDescRel (a :: b :: rest)).head? := by
      rw [hsel]
      simp [getForJobSelect, htitle, hfind]
    rw [insertionSort_desc_head] at hres
    cases hfm : firstMaxByKey (a :: b :: rest) with
    | none => exact absurd ((firstMaxByKey_eq_none _).mp hfm) (by simp)
    | some m =>
      rw [hfm] at hres
      obtain ⟨i, hi, hieq, hmax, hbefore⟩ := firstMaxByKey_spec _ m hfm
      refine ⟨i, hi, ?_, ?_, ?_⟩
      · rw [hres, hieq]
      · simpa only [hieq] using hmax
      · simpa only [hieq] using hbefore

/-- Witness for C6: with two postings for job `j1` and the canonical
title matching the second one exactly, the resolved posting is an exact
title match from the filtered list. -/
theorem c6_posting_tie_break_witness :
    ∃ p, get_for_job postingDictsEx "j1" (some "Engineer SF") = some p ∧
      p ∈ jobPostingsList postingDictsEx "j1" ∧
      pyEqStr p.title "Engineer SF" = true :=
  (c6_posting_tie_break postingDictsEx "j1" "Engineer SF" _ rfl (by decide)
    (by decide)).2.2.1 (by decide) (by decide)

/-- C7: `list_for_job` resolves the interview plan by preferring a truthy
`defaultInterviewPlanId` from the fetched job and falling back to the
first entry of `interviewPlanIds`, and returns that plan's mapped stages
sorted ascending by `orderInStageGroup or 0` (a missing order sorts as 0)
with a stable sort: the result is exactly the stable insertion sort of
the mapped stages, hence a sorted permutation that preserves the original
relative order inside every equal-key class.  `hshape` scopes the run to
protocol-shaped order values (integer, `null`, or absent), on which the
embedded key is exactly Python's. -/
theorem c7_stage_ordering (job_data : Dict) (stagesFor : JsonValue → List Dict)
    (pid : JsonValue) (hpid : resolvePlanId job_data = some pid)
    (hpt : truthy pid = true)
    (hshape : ∀ s ∈ interviewStagesList (stagesFor pid), s.orderShaped = true) :
    (truthyOpt (dictGet job_data "defaultInterviewPlanId") = true →
      dictGet job_data "defaultInterviewPlanId" = some pid) ∧
    (truthyOpt (dictGet job_data "defaultInterviewPlanId") = false →
      (asList (dictGetD job_data "interviewPlanIds" (.arr []))).head? = some pid) ∧
    list_for_job job_data stagesFor =
      List.insertionSort stageAscRel (interviewStagesList (stagesFor pid)) ∧
    List.Sorted stageAscRel (list_for_job job_data stagesFor) ∧
    List.Perm (list_for_job job_data stagesFor) (interviewStagesList (stagesFor pid)) ∧
    (∀ k : Int,
      (list_for_job job_data stagesFor).filter (fun s => stageOrderKey s == k) =
        (interviewStagesList (stagesFor pid)).filter (fun s => stageOrderKey s == k)) := by
  have hc : list_for_job job_data stagesFor =
      List.insertionSort stageAscRel (interviewStagesList (stagesFor pid)) := by
    unfold list_for_job
    rw [hpid]
    simp [hpt]
  refine ⟨?_, ?_, hc, ?_, ?_, ?_⟩
  · intro ht
    unfold resolvePlanId at hpid
    rw [if_pos ht] at hpid
    exact hpid
  · intro hf
    unfold resolvePlanId at hpid
    rw [if_neg (by simp [hf])] at hpid
    cases hm : asList (dictGetD job_data "interviewPlanIds" (.arr [])) with
    | nil =>
      rw [hm] at hpid
      have hpid2 : dictGet job_data "defaultInterviewPlanId" = some pid := hpid
      rw [hpid2] at hf
      simp [truthyOpt] at hf
      exact absurd hpt (by simp [hf])
    | cons x xs =>
      rw [hm] at hpid
      injection hpid with hx
      rw [hx]
      rfl
  · rw [hc]
    exact List.sorted_insertionSort stageAscRel _
  · rw [hc]
    exact List.perm_insertionSort stageAscRel _
  · intro k
    rw [hc]
    refine insertionSort_filter stageAscRel _ ?_ _
    intro x y hr hx
    have hxk : stageOrderKey x = k := by simpa using hx
    have hyx : stageOrderKey y < stageOrderKey x := not_le.mp hr
    simp [hxk ▸ hyx]
    omega

/-- Witness for C7: a job with default plan `plan1` whose stages carry
orders `2`, absent, and `1` comes back ordered absent-as-0, 1, 2. -/
theorem c7_stage_ordering_witness :
    resolvePlanId jobDataEx = some (.str "plan1") ∧
    (list_for_job jobDataEx stagesForEx).map (fun s => s.id) =
      [.str "s0", .str "s1", .str "s2"] := by
  have h := c7_stage_ordering jobDataEx stagesForEx (.str "plan1") rfl rfl (by decide)
  refine ⟨rfl, ?_⟩
  rw [h.2.2.1]
  rfl

/-! # Survey-parsing helper lemmas -/

theorem jdictSet_fresh (d : JDict) (k v : JsonValue)
    (h : ∀ kv ∈ d, jsonBeq kv.1 k = false) :
    jdictSet d k v = d ++ [(k, v)] := by
  induction d with
  | nil => rfl
  | cons kv rest ih =>
    rw [jdictSet]
    rw [if_neg (by simp [h kv (List.mem_cons_self kv rest)])]
    rw [ih (fun kv2 hkv2 => h kv2 (List.mem_cons_of_mem kv hkv2))]
    rfl

theorem distinctKeys_cons (k : JsonValue) (ks : List JsonValue)
    (h : distinctKeys (k :: ks) = true) :
    (∀ k2 ∈ ks, jsonBeq k k2 = false ∧ jsonBeq k2 k = false) ∧
      distinctKeys ks = true := by
  rw [distinctKeys, Bool.and_eq_true, List.all_eq_true] at h
  obtain ⟨h1, h2⟩ := h
  refine ⟨?_, h2⟩
  intro k2 hk2
  have := h1 k2 hk2
  rw [Bool.and_eq_true, Bool.not_eq_true', Bool.not_eq_true'] at this
  exact this

theorem parseAnswers_foldl (fm : Dict) (es : List (String × JsonValue)) (acc : JDict)
    (hacc : ∀ kv ∈ es, answerKept fm kv.1 = true →
      ∀ av ∈ acc, jsonBeq av.1 (answerTitle fm kv.1) = false)
    (hdk : distinctKeys ((es.filter (fun kv => answerKept fm kv.1)).map
      (fun kv => answerTitle fm kv.1)) = true) :
    es.foldl (fun answers kv =>
      if answerKept fm kv.1 then
        jdictSet answers (answerTitle fm kv.1) (normalizeAnswer kv.2)
      else answers) acc =
    acc ++ (es.filter (fun kv => answerKept fm kv.1)).map
      (fun kv => (answerTitle fm kv.1, normalizeAnswer kv.2)) := by
  induction es generalizing acc with
  | nil => simp
  | cons kv es ih =>
    by_cases hk : answerKept fm kv.1 = true
    · rw [List.filter_cons_of_pos (by simpa using hk)] at hdk ⊢
      rw [List.map_cons] at hdk
      obtain ⟨hhead, htail⟩ := distinctKeys_cons _ _ hdk
      rw [List.foldl_cons, if_pos hk]
      rw [jdictSet_fresh _ _ _ (hacc kv (List.mem_cons_self kv es) hk)]
      rw [ih (acc ++ [(answerTitle fm kv.1, normalizeAnswer kv.2)]) ?_ htail]
      · rw [List.map_cons, List.append_assoc]
        rfl
      · intro kv2 hkv2 hk2 av hav
        rcases List.mem_append.mp hav with hav1 | hav2
        · exact hacc kv2 (List.mem_cons_of_mem kv hkv2) hk2 av hav1
        · rw [List.mem_singleton.mp hav2]
          have hm : answerTitle fm kv2.1 ∈
              (es.filter (fun kv => answerKept fm kv.1)).map
                (fun kv => answerTitle fm kv.1) :=
            List.mem_map_of_mem _ (List.mem_filter.mpr ⟨hkv2, by simpa using hk2⟩)
          exact (hhead _ hm).1
    · rw [List.foldl_cons, if_neg hk]
      rw [List.filter_cons_of_neg (by simpa using hk)] at hdk ⊢
      exact ih acc (fun kv2 hkv2 => hacc kv2 (List.mem_cons_of_mem kv hkv2)) hdk

/-! # Survey-parsing claim theorems -/

/-- C8 counterexample: `_systemfield_name` is declared as a real form
field (the field map resolves it to the title `Full Name`), yet
`parse_submission` still skips it — the fixed skip set applies even to
system fields explicitly defined in the form definition, so the claimed
"unless they are also explicitly defined as real form fields" escape does
not exist for those five keys. -/
theorem c8_system_field_always_skipped :
    dictGet (buildFieldMap subWithSystemField) "_systemfield_name" =
      some (.str "Full Name") ∧
    answerKept (buildFieldMap subWithSystemField) "_systemfield_name" = false ∧
    (parse_submission subWithSystemField).answers = [] :=
  ⟨rfl, rfl, rfl⟩

/-- C8 amended: the five fixed system fields are always skipped (even
when the form definition declares them); any *other*
`_systemfield_`-prefixed key is skipped exactly when the form definition
does not declare it; every surviving entry is stored, in submission
order, under `field_map.get(key, key)` with the claimed value
normalization (dict → its `text` else `name` entry, boolean →
`"Yes"`/`"No"`, list → `", "`-join of stringified elements preferring a
dict element's `name`), provided the surviving titles are pairwise
distinct; in particular the spec's two examples hold. -/
theorem c8_parse_submission (sub : Dict)
    (hdk : distinctKeys (((submittedEntries sub).filter
        (fun kv => answerKept (buildFieldMap sub) kv.1)).map
        (fun kv => answerTitle (buildFieldMap sub) kv.1)) = true) :
    (parse_submission sub).answers =
      ((submittedEntries sub).filter (fun kv => answerKept (buildFieldMap sub) kv.1)).map
        (fun kv => (answerTitle (buildFieldMap sub) kv.1, normalizeAnswer kv.2)) ∧
    (∀ fm k, skipFields.contains k = true → answerKept fm k = false) ∧
    (∀ fm k, k.startsWith "_systemfield_" = true → dictHas fm k = false →
      answerKept fm k = false) ∧
    (∀ fm k, skipFields.contains k = false →
      (k.startsWith "_systemfield_" = false ∨ dictHas fm k = true) →
      answerKept fm k = true) ∧
    (parse_submission subBoolExample).answers = [(.str "Remote OK?", .str "Yes")] ∧
    (parse_submission subListExample).answers = [(.str "Skills", .str "Python, Go")] := by
  refine ⟨?_, ?_, ?_, ?_, rfl, rfl⟩
  · have h := parseAnswers_foldl (buildFieldMap sub) (submittedEntries sub) []
      (fun kv _ _ av hav => absurd hav (List.not_mem_nil av)) hdk
    simpa [parse_submission, parseAnswers] using h
  · intro fm k hk
    have hk2 : k ∈ skipFields := by simpa using hk
    simp [answerKept, hk2]
  · intro fm k h1 h2
    simp [answerKept, h1, h2]
  · intro fm k h1 h2
    have h12 : k ∉ skipFields := by simpa using h1
    rcases h2 with h2 | h2 <;> simp [answerKept, h12, h2]

/-- Witness for C8 at the boolean example submission. -/
theorem c8_parse_submission_witness :
    (parse_submission subBoolExample).answers =
      ((submittedEntries subBoolExample).filter
        (fun kv => answerKept (buildFieldMap subBoolExample) kv.1)).map
        (fun kv => (answerTitle (buildFieldMap subBoolExample) kv.1,
          normalizeAnswer kv.2)) :=
  (c8_parse_submission subBoolExample rfl).1

/-- Witness for C1: a two-page run yields both pages' items in order and
issues two requests. -/
theorem c1_pagination_completeness_witness :
    IsPageSeq [pageA, pageB] ∧
    (paginate "job.list" (some [("status", .str "Open")]) 50 [pageA, pageB]).yielded =
      [.obj [("id", .str "a1")], .obj [("id", .str "a2")], .obj [("id", .str "a3")]] ∧
    (paginate "job.list" (some [("status", .str "Open")]) 50 [pageA, pageB]).requests.length =
      2 := by
  have hseq : IsPageSeq [pageA, pageB] := by
    refine ⟨by simp, ?_, ?_, ?_⟩
    · intro p hp
      have hp2 : p = pageA := by
        simpa [List.dropLast_cons₂] using hp
      rw [hp2]
      rfl
    · intro p hp
      have hp2 : p = pageA := by
        simpa [List.dropLast_cons₂] using hp
      rw [hp2]
      rfl
    · intro p hp
      have h2 : some pageB = some p :=
        (show some pageB = [pageA, pageB].getLast? from rfl).trans hp
      injection h2 with h3
      rw [← h3]
      rfl
  have h := c1_pagination_completeness "job.list" [("status", .str "Open")] 50
    [pageA, pageB] hseq
  exact ⟨hseq, h.1.trans rfl, h.2.1.trans rfl⟩

end AshbySdk
